import Mathlib

/-
Shallow embedding of the embeddings HTTP service (src/embeddings_service/app.py).
The service loads one sentence-embedding model at startup, probes it once for
the output dimension, and serves GET /health, GET / and POST /embeddings.
The external model library is modelled as an opaque encode capability
(a function from a list of texts and a normalization flag to either a list
of vectors or a failure description). Handler definitions additionally
return the list of encode invocations they performed, so that claims about
calls being made, skipped or repeated are statable; the first component is
the HTTP-visible result, translated from the source.
-/

namespace EmbeddingsService

/-- Embedding vectors as produced by v.tolist(): plain sequences of floats. -/
abbrev Vec := List Float

/-- Built-in default for the model identifier (source line 13). -/
def defaultModelName : String := "BAAI/bge-small-en-v1.5"

/-- MODEL_NAME = os.getenv("EMBEDDINGS_MODEL_NAME", "BAAI/bge-small-en-v1.5"):
the environment variable when set, the built-in default otherwise. -/
def MODEL_NAME (env : Option String) : String := env.getD defaultModelName

/-- NORMALIZE_DEFAULT = True (source line 14). -/
def NORMALIZE_DEFAULT : Bool := true

/-- The model capability: encode a list of strings with a normalization flag
(True / False / None, hence Option Bool) and return one vector per text, or
fail with a description string (a raised exception). -/
structure Model where
  encode : List String → Option Bool → Except String (List Vec)

/-- One recorded invocation of the encode capability: its two arguments. -/
abbrev EncodeCall := List String × Option Bool

/-- Python str.strip on the character list: drop leading and trailing
whitespace characters. -/
def stripChars (l : List Char) : List Char :=
  ((l.dropWhile Char.isWhitespace).reverse.dropWhile Char.isWhitespace).reverse

/-- Python t.strip() as a String operation. -/
def pyStrip (s : String) : String := String.mk (stripChars s.data)

/-- Truthiness of t.strip(): true exactly when the stripped string is
non-empty. This is the filter condition of the embeddings handler
(the isinstance(t, str) conjunct is always satisfied here because the
validated request type makes every element a string). -/
def nonBlank (t : String) : Bool := !(stripChars t.data).isEmpty

/-- Dimension probe (source lines 27-31): encode ["test"] with the default
normalization; the dimension is the length of the first returned vector.
Any failure, including an empty result making the [0] indexing raise, is
caught and yields the hardcoded fallback 384. The second component records
the single probe invocation. -/
def computeDimT (m : Model) : Nat × List EncodeCall :=
  (match m.encode ["test"] (some NORMALIZE_DEFAULT) with
   | Except.ok (v :: _) => v.length
   | Except.ok [] => 384
   | Except.error _ => 384,
   [(["test"], some NORMALIZE_DEFAULT)])

/-- Process-level state fixed at startup: the configured model name, the
loaded model binding and the computed embedding dimension. Together with the
constant NORMALIZE_DEFAULT this is all the state the handlers see. -/
structure Ctx where
  modelName : String
  model : Model
  dim : Nat

/-- Startup (source lines 21-31): load the named model; a load failure is a
fatal RuntimeError and the process never serves. On success the dimension is
probed and the process state is fixed. -/
def startup (env : Option String) (load : String → Except String Model) :
    Except String Ctx :=
  match load (MODEL_NAME env) with
  | Except.error _ =>
      Except.error ("Failed to load model \x27" ++ MODEL_NAME env ++ "\x27.")
  | Except.ok m => Except.ok ⟨MODEL_NAME env, m, (computeDimT m).1⟩

/-- JSON-level state of the normalize field of a request body: absent,
explicit null, or an explicit boolean. -/
inductive NormField where
  | omitted
  | null
  | given (b : Bool)

/-- Pydantic validation of the field normalize: Optional[bool] with default
NORMALIZE_DEFAULT. An omitted field takes the default; an explicit null is a
legal value of Optional[bool] and validates to None; a boolean is kept. -/
def parseNormalize : NormField → Option Bool
  | NormField.omitted => some NORMALIZE_DEFAULT
  | NormField.null => none
  | NormField.given b => some b

/-- Validated EmbeddingsRequest: a list of input texts and the normalize
value (None, True or False) after pydantic validation. -/
structure EmbeddingsRequest where
  input : List String
  normalize : Option Bool

/-- HTTPException carrying a status code and a detail message. -/
structure HTTPError where
  status : Nat
  detail : String

/-- One element of the data list: a record with one embedding vector. -/
structure EmbeddingItem where
  embedding : Vec

/-- Success response of POST /embeddings: model name, dimension and the
data list. -/
structure EmbeddingsResponse where
  model : String
  dimension : Nat
  data : List EmbeddingItem

/-- texts = [t for t in req.input if isinstance(t, str) and t.strip()]
(source line 51). -/
def filteredInput (req : EmbeddingsRequest) : List String :=
  req.input.filter nonBlank

/-- POST /embeddings handler (source lines 49-66). If the filtered list is
empty: 400 with the fixed message, and no encode invocation. Otherwise
encode is invoked once on the filtered texts with the requested flag; a
failure becomes a 500 whose detail embeds the failure description, a success
becomes the response record with one data item per returned vector, in
order. -/
def embeddingsT (ctx : Ctx) (req : EmbeddingsRequest) :
    Except HTTPError EmbeddingsResponse × List EncodeCall :=
  if (filteredInput req).isEmpty then
    (Except.error ⟨400, "Input must contain at least one non-empty string."⟩, [])
  else
    match ctx.model.encode (filteredInput req) req.normalize with
    | Except.error e =>
        (Except.error ⟨500, "Encoding failed: " ++ e⟩,
         [(filteredInput req, req.normalize)])
    | Except.ok vecs =>
        (Except.ok ⟨ctx.modelName, ctx.dim, vecs.map EmbeddingItem.mk⟩,
         [(filteredInput req, req.normalize)])

/-- GET /health response record (source lines 40-46). -/
structure HealthResponse where
  status : String
  model : String
  dimension : Nat

/-- GET / response record (source lines 70-72). -/
structure RootResponse where
  message : String
  model : String
  dimension : Nat

/-- GET /health handler. -/
def health (ctx : Ctx) : HealthResponse := ⟨"ok", ctx.modelName, ctx.dim⟩

/-- GET / handler. -/
def root (ctx : Ctx) : RootResponse :=
  ⟨"Embeddings service ready", ctx.modelName, ctx.dim⟩

/-- A request to any of the three routes. -/
inductive Request where
  | health
  | root
  | embed (req : EmbeddingsRequest)

/-- A response from any of the three routes. -/
inductive Response where
  | health (r : HealthResponse)
  | root (r : RootResponse)
  | embed (r : Except HTTPError EmbeddingsResponse)

/-- Dispatch one request against the process state, returning the response
and the process state afterwards. The handlers read the state and never
assign to it, so the state after is the state before. -/
def serve (ctx : Ctx) : Request → Response × Ctx
  | Request.health => (Response.health (health ctx), ctx)
  | Request.root => (Response.root (root ctx), ctx)
  | Request.embed req => (Response.embed (embeddingsT ctx req).1, ctx)

/-- Serve a sequence of requests to the same process, threading the state. -/
def serveAll (ctx : Ctx) : List Request → List Response × Ctx
  | [] => ([], ctx)
  | r :: rs =>
      ((serve ctx r).1 :: (serveAll (serve ctx r).2 rs).1,
       (serveAll (serve ctx r).2 rs).2)

/-- Concrete model for witnesses: every text encodes to the vector [1.0]. -/
def encodeConst : Model := ⟨fun ts _ => Except.ok (ts.map (fun _ => [(1.0 : Float)]))⟩

/-- Concrete model for witnesses: every encode invocation fails. -/
def encodeFail : Model := ⟨fun _ _ => Except.error ("boom")⟩

/-- Concrete process state for witnesses, built on encodeConst. -/
def ctxW : Ctx := ⟨"BAAI/bge-small-en-v1.5", encodeConst, 1⟩

/-- Concrete process state for witnesses, built on encodeFail. -/
def ctxF : Ctx := ⟨"m", encodeFail, 384⟩

/-- Concrete loader for witnesses: loading always fails. -/
def loadFail : String → Except String Model := fun _ => Except.error ("no network")

lemma stripChars_eq_nil_iff (l : List Char) :
    stripChars l = [] ↔ ∀ c ∈ l, c.isWhitespace := by
  unfold stripChars
  rw [List.reverse_eq_nil_iff, List.dropWhile_eq_nil_iff]
  constructor
  · intro h c hc
    have hsplit := List.takeWhile_append_dropWhile (p := Char.isWhitespace) (l := l)
    rw [← hsplit] at hc
    rcases List.mem_append.mp hc with h1 | h2
    · exact List.mem_takeWhile_imp h1
    · exact h c (List.mem_reverse.mpr h2)
  · intro h c hc
    exact h c ((List.dropWhile_sublist _).mem (List.mem_reverse.mp hc))

lemma nonBlank_eq_any (t : String) :
    nonBlank t = t.data.any (fun c => !c.isWhitespace) := by
  unfold nonBlank
  cases h : t.data.any (fun c => !c.isWhitespace) with
  | false =>
    have h1 : ∀ c ∈ t.data, c.isWhitespace := by
      intro c hc
      have h2 := List.any_eq_false.mp h c hc
      simpa using h2
    have h2 : stripChars t.data = [] := (stripChars_eq_nil_iff _).mpr h1
    simp [h2]
  | true =>
    have h2 : stripChars t.data ≠ [] := by
      intro hnil
      have h1 := (stripChars_eq_nil_iff _).mp hnil
      rcases List.any_eq_true.mp h with ⟨c, hc, hcw⟩
      simp [h1 c hc] at hcw
    cases hs : stripChars t.data with
    | nil => exact absurd hs h2
    | cons a l => simp [hs]

lemma filteredInput_isEmpty_false (req : EmbeddingsRequest)
    (hne : filteredInput req ≠ []) : (filteredInput req).isEmpty = false := by
  cases hh : filteredInput req with
  | nil => exact absurd hh hne
  | cons a l => rfl

lemma embeddingsT_of_empty (ctx : Ctx) (req : EmbeddingsRequest)
    (h : filteredInput req = []) :
    embeddingsT ctx req =
      (Except.error ⟨400, "Input must contain at least one non-empty string."⟩,
       ([] : List EncodeCall)) := by
  simp [embeddingsT, h]

lemma embeddingsT_of_ok (ctx : Ctx) (req : EmbeddingsRequest) (vecs : List Vec)
    (hne : filteredInput req ≠ [])
    (henc : ctx.model.encode (filteredInput req) req.normalize = Except.ok vecs) :
    embeddingsT ctx req =
      (Except.ok ⟨ctx.modelName, ctx.dim, vecs.map EmbeddingItem.mk⟩,
       [(filteredInput req, req.normalize)]) := by
  simp [embeddingsT, filteredInput_isEmpty_false req hne, henc]

lemma embeddingsT_of_error (ctx : Ctx) (req : EmbeddingsRequest) (e : String)
    (hne : filteredInput req ≠ [])
    (henc : ctx.model.encode (filteredInput req) req.normalize = Except.error e) :
    embeddingsT ctx req =
      (Except.error ⟨500, "Encoding failed: " ++ e⟩,
       [(filteredInput req, req.normalize)]) := by
  simp [embeddingsT, filteredInput_isEmpty_false req hne, henc]

lemma embeddingsT_calls (ctx : Ctx) (req : EmbeddingsRequest)
    (hne : filteredInput req ≠ []) :
    (embeddingsT ctx req).2 = [(filteredInput req, req.normalize)] := by
  cases henc : ctx.model.encode (filteredInput req) req.normalize with
  | error e => rw [embeddingsT_of_error ctx req e hne henc]
  | ok vecs => rw [embeddingsT_of_ok ctx req vecs hne henc]

lemma embeddingsT_ok_inv (ctx : Ctx) (req : EmbeddingsRequest)
    (resp : EmbeddingsResponse)
    (h : (embeddingsT ctx req).1 = Except.ok resp) :
    resp.model = ctx.modelName ∧ resp.dimension = ctx.dim := by
  by_cases hne : filteredInput req = []
  · rw [embeddingsT_of_empty ctx req hne] at h
    simp at h
  · cases henc : ctx.model.encode (filteredInput req) req.normalize with
    | error e =>
      rw [embeddingsT_of_error ctx req e hne henc] at h
      simp at h
    | ok vecs =>
      rw [embeddingsT_of_ok ctx req vecs hne henc] at h
      simp at h
      rw [← h]
      exact ⟨rfl, rfl⟩

lemma serve_snd (ctx : Ctx) (r : Request) : (serve ctx r).2 = ctx := by
  cases r <;> rfl

lemma serveAll_snd (ctx : Ctx) (rs : List Request) :
    (serveAll ctx rs).2 = ctx := by
  induction rs generalizing ctx with
  | nil => rfl
  | cons r rs ih => simp [serveAll, serve_snd, ih]

lemma serveAll_fst (ctx : Ctx) (rs : List Request) :
    (serveAll ctx rs).1 = rs.map (fun r => (serve ctx r).1) := by
  induction rs generalizing ctx with
  | nil => rfl
  | cons r rs ih => simp [serveAll, serve_snd, ih]

/-- C1: for a POST /embeddings request with at least one filtered input
string, when the encode call succeeds with one vector per filtered string,
the handler returns a success record carrying the model name, the dimension
and a data list whose length equals the number of filtered input strings and
whose i-th element is the record holding exactly the i-th returned vector,
in matching order. -/
theorem embeddings_success_shape (ctx : Ctx) (req : EmbeddingsRequest)
    (vecs : List Vec) (hne : filteredInput req ≠ [])
    (henc : ctx.model.encode (filteredInput req) req.normalize = Except.ok vecs)
    (hlen : vecs.length = (filteredInput req).length) :
    ∃ resp : EmbeddingsResponse,
      (embeddingsT ctx req).1 = Except.ok resp ∧
      resp.model = ctx.modelName ∧
      resp.dimension = ctx.dim ∧
      resp.data.length = (filteredInput req).length ∧
      resp.data = vecs.map EmbeddingItem.mk := by
  refine ⟨⟨ctx.modelName, ctx.dim, vecs.map EmbeddingItem.mk⟩, ?_, rfl, rfl, ?_, rfl⟩
  · rw [embeddingsT_of_ok ctx req vecs hne henc]
  · simpa using hlen

/-- Witness for C1 at the scenario input: one usable string, one vector. -/
theorem embeddings_success_shape_witness :
    (embeddingsT ctxW ⟨["hello world"], some true⟩).1 =
      Except.ok ⟨ctxW.modelName, ctxW.dim,
        List.map EmbeddingItem.mk [[(1.0 : Float)]]⟩ := by
  obtain ⟨resp, h1, h2, h3, h4, h5⟩ :=
    embeddings_success_shape ctxW ⟨["hello world"], some true⟩ [[(1.0 : Float)]]
      (by decide) rfl rfl
  have he : resp = ⟨ctxW.modelName, ctxW.dim,
      List.map EmbeddingItem.mk [[(1.0 : Float)]]⟩ := by
    rw [← h2, ← h3, ← h5]
  rw [h1, he]

/-- C2: the handler keeps exactly the input elements that contain at least
one non-whitespace character (non-empty, non-whitespace-only strings); when
nothing survives the filter the request fails with status 400 and the fixed
message, and the recorded list of encode invocations is empty, for every
possible model, so no encoding call is made. -/
theorem embeddings_empty_filter_400 (ctx : Ctx) (req : EmbeddingsRequest)
    (h : filteredInput req = []) :
    embeddingsT ctx req =
      (Except.error ⟨400, "Input must contain at least one non-empty string."⟩,
       ([] : List EncodeCall)) ∧
    ∀ l : List String,
      l.filter nonBlank =
        l.filter (fun t => t.data.any (fun c => !c.isWhitespace)) := by
  refine ⟨embeddingsT_of_empty ctx req h, ?_⟩
  intro l
  apply List.filter_congr
  intro t _
  exact nonBlank_eq_any t

/-- Witness for C2 at the scenario input: an empty and a blank string. -/
theorem embeddings_empty_filter_400_witness :
    embeddingsT ctxW ⟨["", "   "], some true⟩ =
      (Except.error ⟨400, "Input must contain at least one non-empty string."⟩,
       ([] : List EncodeCall)) :=
  (embeddings_empty_filter_400 ctxW ⟨["", "   "], some true⟩ (by decide)).1

/-- C3: when the filtered list is non-empty and the encode invocation fails
with description e, the handler fails with status 500 and a message that
embeds e, and the recorded invocation list holds exactly the one call, so
the request is not retried. -/
theorem embeddings_encode_error_500 (ctx : Ctx) (req : EmbeddingsRequest)
    (e : String) (hne : filteredInput req ≠ [])
    (henc : ctx.model.encode (filteredInput req) req.normalize = Except.error e) :
    embeddingsT ctx req =
      (Except.error ⟨500, "Encoding failed: " ++ e⟩,
       [(filteredInput req, req.normalize)]) :=
  embeddingsT_of_error ctx req e hne henc

/-- Witness for C3: a failing model on one usable string. -/
theorem embeddings_encode_error_500_witness :
    embeddingsT ctxF ⟨["a"], some true⟩ =
      (Except.error ⟨500, "Encoding failed: " ++ "boom"⟩,
       [(filteredInput ⟨["a"], some true⟩, some true)]) :=
  embeddings_encode_error_500 ctxF ⟨["a"], some true⟩ ("boom") (by decide) rfl

/-- C4: the dimension probe performs exactly one encode invocation, on the
single fixed string with the default normalization; when it returns at least
one vector the dimension is that vector length; when it fails the dimension
is the hardcoded 384; and startup succeeds whenever the load succeeds,
whatever the probe outcome. -/
theorem dim_probe_policy (m : Model) :
    (computeDimT m).2 = [(["test"], some NORMALIZE_DEFAULT)] ∧
    (∀ v rest, m.encode ["test"] (some NORMALIZE_DEFAULT) = Except.ok (v :: rest) →
      (computeDimT m).1 = v.length) ∧
    (∀ e, m.encode ["test"] (some NORMALIZE_DEFAULT) = Except.error e →
      (computeDimT m).1 = 384) ∧
    (∀ env, startup env (fun _ => Except.ok m) =
      Except.ok ⟨MODEL_NAME env, m, (computeDimT m).1⟩) := by
  refine ⟨rfl, ?_, ?_, ?_⟩
  · intro v rest henc
    simp [computeDimT, henc]
  · intro e henc
    simp [computeDimT, henc]
  · intro env
    rfl

/-- Witness for C4: a model whose probe fails yields dimension 384. -/
theorem dim_probe_policy_witness : (computeDimT encodeFail).1 = 384 :=
  ((dim_probe_policy encodeFail).2.2.1) ("boom") rfl

/-- C5: GET /health, GET / and the metadata of every successful
POST /embeddings response report the same model name and dimension, and the
dimension of the process state never changes across any sequence of
requests served by the same process. -/
theorem metadata_consistency (ctx : Ctx) :
    (health ctx).model = ctx.modelName ∧
    (health ctx).dimension = ctx.dim ∧
    (root ctx).model = (health ctx).model ∧
    (root ctx).dimension = (health ctx).dimension ∧
    (∀ req resp, (embeddingsT ctx req).1 = Except.ok resp →
      resp.model = (health ctx).model ∧
      resp.dimension = (health ctx).dimension) ∧
    (∀ rs : List Request, ((serveAll ctx rs).2).dim = ctx.dim) := by
  refine ⟨rfl, rfl, rfl, rfl, ?_, ?_⟩
  · intro req resp h
    exact embeddingsT_ok_inv ctx req resp h
  · intro rs
    rw [serveAll_snd]

/-- Witness for C5: a concrete successful response reports the same model
name and dimension as the health endpoint. -/
theorem metadata_consistency_witness :
    EmbeddingsResponse.model
        ⟨"BAAI/bge-small-en-v1.5", 1, [EmbeddingItem.mk [(1.0 : Float)]]⟩ =
      (health ctxW).model ∧
    EmbeddingsResponse.dimension
        ⟨"BAAI/bge-small-en-v1.5", 1, [EmbeddingItem.mk [(1.0 : Float)]]⟩ =
      (health ctxW).dimension :=
  ((metadata_consistency ctxW).2.2.2.2.1) ⟨["a"], some true⟩
    ⟨"BAAI/bge-small-en-v1.5", 1, [EmbeddingItem.mk [(1.0 : Float)]]⟩ rfl

/-- C6: a request body that omits the normalize field validates to the
process default true and the handler behaves identically, result and encode
invocations alike, to a request that passes true explicitly. -/
theorem normalize_omitted_eq_default (ctx : Ctx) (input : List String) :
    parseNormalize NormField.omitted = some true ∧
    embeddingsT ctx ⟨input, parseNormalize NormField.omitted⟩ =
      embeddingsT ctx ⟨input, parseNormalize (NormField.given true)⟩ :=
  ⟨rfl, rfl⟩

/-- C7: when loading the named model fails, startup fails with the fatal
message and never produces a process state, so no request is ever served
and no per-request recovery exists for this failure. -/
theorem startup_load_failure_fatal (env : Option String)
    (load : String → Except String Model) (e : String)
    (h : load (MODEL_NAME env) = Except.error e) :
    startup env load =
      Except.error ("Failed to load model \x27" ++ MODEL_NAME env ++ "\x27.") ∧
    ∀ ctx : Ctx, startup env load ≠ Except.ok ctx := by
  have h1 : startup env load =
      Except.error ("Failed to load model \x27" ++ MODEL_NAME env ++ "\x27.") := by
    simp [startup, h]
  refine ⟨h1, ?_⟩
  intro ctx hc
  rw [h1] at hc
  exact Except.noConfusion hc

/-- Witness for C7: a loader that always fails makes startup fatal. -/
theorem startup_load_failure_fatal_witness :
    startup none loadFail =
      Except.error ("Failed to load model \x27" ++ MODEL_NAME none ++ "\x27.") :=
  (startup_load_failure_fatal none loadFail ("no network") rfl).1

/-- C8: an explicit null for the normalize field validates to None, which is
not what an omitted field validates to, and the handler passes None as the
normalization flag of the encode invocation. -/
theorem normalize_null_passes_none (ctx : Ctx) (input : List String)
    (hne : filteredInput ⟨input, parseNormalize NormField.null⟩ ≠ []) :
    parseNormalize NormField.null = none ∧
    parseNormalize NormField.null ≠ parseNormalize NormField.omitted ∧
    (embeddingsT ctx ⟨input, parseNormalize NormField.null⟩).2 =
      [(filteredInput ⟨input, parseNormalize NormField.null⟩, none)] := by
  refine ⟨rfl, by simp [parseNormalize, NORMALIZE_DEFAULT], ?_⟩
  exact embeddingsT_calls ctx _ hne

/-- Witness for C8: with input ["a"] and an explicit null, the recorded
encode invocation carries None. -/
theorem normalize_null_passes_none_witness :
    parseNormalize NormField.null = none ∧
    parseNormalize NormField.null ≠ parseNormalize NormField.omitted ∧
    (embeddingsT ctxW ⟨["a"], parseNormalize NormField.null⟩).2 =
      [(filteredInput ⟨["a"], parseNormalize NormField.null⟩, none)] :=
  normalize_null_passes_none ctxW ["a"] (by decide)

/-- C9: the filtered list handed to the encode invocation is a sublist of
the original input, so every surviving string is passed verbatim, any
leading, trailing or internal whitespace included; stripping is used only
for the emptiness test. -/
theorem encode_receives_original_strings (ctx : Ctx) (req : EmbeddingsRequest)
    (hne : filteredInput req ≠ []) :
    List.Sublist (filteredInput req) req.input ∧
    (∀ t ∈ filteredInput req, t ∈ req.input ∧ nonBlank t = true) ∧
    (embeddingsT ctx req).2 = [(filteredInput req, req.normalize)] := by
  refine ⟨List.filter_sublist _, ?_, embeddingsT_calls ctx req hne⟩
  intro t ht
  have h1 := List.mem_filter.mp ht
  exact ⟨h1.1, h1.2⟩

/-- Witness for C9: a string padded with whitespace is passed to the encode
invocation exactly as given. -/
theorem encode_receives_original_strings_witness :
    List.Sublist (filteredInput ⟨["  hi  "], some true⟩) ["  hi  "] ∧
    (embeddingsT ctxW ⟨["  hi  "], some true⟩).2 =
      [(filteredInput ⟨["  hi  "], some true⟩, some true)] :=
  ⟨(encode_receives_original_strings ctxW ⟨["  hi  "], some true⟩ (by decide)).1,
   (encode_receives_original_strings ctxW ⟨["  hi  "], some true⟩ (by decide)).2.2⟩

/-- C10: serving any sequence of requests to the three routes leaves the
process state, hence the model name, the loaded model binding and the
dimension, unchanged, and every response equals the one computed from the
initial state. -/
theorem handlers_preserve_state (ctx : Ctx) (rs : List Request) :
    (serveAll ctx rs).2 = ctx ∧
    (serveAll ctx rs).1 = rs.map (fun r => (serve ctx r).1) ∧
    ∀ r : Request, (serve ctx r).2 = ctx :=
  ⟨serveAll_snd ctx rs, serveAll_fst ctx rs, fun r => serve_snd ctx r⟩

end EmbeddingsService
